import Mathlib

/-!
Shallow embedding of the zk-pig `Preparer` pipeline
(`src/generator/prepare.go`) and verification of the spec's claims
about it.

The pipeline's own control flow and data flow (the functions
`Prepare`, `prepare`, `prepareContext`, `preparePreState`,
`prepareExecParams`, `execute`, `prepareProverInput`) are translated
directly from the source.  External collaborators that live outside
the translated source (`ethereum.NewChain`,
`trie.NodeSetFromStateTransitionProofs`, `triedb.Update`,
`gethstate.New`, the EVM executor) are abstracted as a bundle of
functions (`Collab`); concrete instances modelled from the spec are
provided where a claim depends on their behaviour.

Go's `(value, error)` return pairs are embedded as explicit pairs of
options; Go runtime faults (index out of range, nil-pointer
dereference), which do not return at all, are a distinguished
`panicked` outcome.  The in-memory store written during hydration is
embedded as an ordered event trace inside a `World` record that also
carries the (pointer-passed, hence in principle mutable)
`PreflightData` record, so that frame properties are expressible.
-/

namespace ZkPig

abbrev Hash := Nat
abbrev Bytes := List Nat

/-- Chain configuration: numeric chain id plus an opaque fork schedule.
Consumed, never mutated (spec §3.1). -/
structure ChainConfig where
  chainID : Nat
  forkSchedule : Nat
deriving DecidableEq, Repr

/-- A block header: number, state root, parent hash, and the remaining
Ethereum fields lumped into one opaque component. -/
structure Header where
  number : Nat
  root : Hash
  parentHash : Hash
  extra : Nat
deriving DecidableEq, Repr

/-- A block: header plus transactions, uncles, and optional withdrawals. -/
structure Block where
  header : Header
  transactions : List Bytes
  uncles : List Header
  withdrawals : Option (List Bytes)
deriving DecidableEq, Repr

/-- The block's declared post-state root (`inputs.Block.Root`). -/
def Block.root (b : Block) : Hash := b.header.root

/-- A state proof: the root it is declared against plus its encoded nodes. -/
structure StateProof where
  root : Hash
  nodes : List Bytes
deriving DecidableEq, Repr

abbrev NodeSet := List Bytes

/-- The `PreflightData` input record (spec §3.1). -/
structure PreflightData where
  chainConfig : ChainConfig
  block : Block
  ancestors : List Header
  preStateProofs : List StateProof
  postStateProofs : List StateProof
  codes : List Bytes
deriving DecidableEq, Repr

/-- The witness recorded by the stateless EVM execution: ancestor headers
consulted, bytecodes accessed, encoded trie nodes accessed.  `codes` and
`state` are key sets of Go maps; their list order models one arbitrary
iteration order. -/
structure Witness where
  headers : List Header
  codes : List Bytes
  state : List Bytes
deriving DecidableEq, Repr

/-- Execution parameters handed to the EVM executor (`evm.ExecParams`).
The header chain is represented by the chain config it carries; the
state object by the root it was opened at. -/
structure ExecParams where
  vmStatelessSelfValidation : Bool
  block : Block
  validate : Bool
  chainConfig : ChainConfig
  stateRoot : Hash
deriving DecidableEq, Repr

/-- One entry of `ProverInput.Blocks`. -/
structure BlockInput where
  header : Header
  transactions : List Bytes
  uncles : List Header
  withdrawals : Option (List Bytes)
deriving DecidableEq, Repr

/-- The witness component of the output record. -/
structure PIWitness where
  ancestors : List Header
  codes : List Bytes
  state : List Bytes
deriving DecidableEq, Repr

/-- The `ProverInput` output record. -/
structure ProverInput where
  chainConfig : ChainConfig
  blocks : List BlockInput
  witness : PIWitness
deriving DecidableEq, Repr

/-- A Go error value: either an error produced by a collaborator, or a
`fmt.Errorf("label: %v", inner)` wrapping. -/
inductive GoError where
  | base : String → GoError
  | wrap : String → GoError → GoError
deriving DecidableEq, Repr

/-- How a function call can fail: by returning an error value, or by a
runtime fault that does not return. -/
inductive Failure where
  | thrown : GoError → Failure
  | panicked : String → Failure
deriving DecidableEq, Repr

/-- `fmt.Errorf("label: %v", err)` on a failure: wraps returned errors,
passes runtime faults through untouched. -/
def Failure.wrapWith (label : String) : Failure → Failure
  | .thrown e => .thrown (.wrap label e)
  | .panicked m => .panicked m

/-- Result of a Go function returning `(*T, error)`: a returned pair of
options, or a runtime fault. -/
inductive Outcome (α : Type) where
  | ret : Option α → Option GoError → Outcome α
  | panicked : String → Outcome α
deriving DecidableEq, Repr

/-- Lift a sub-call failure into a `(nil, err)` return or a propagating
fault. -/
def liftFailure {α : Type} : Failure → Outcome α
  | .thrown e => .ret none (some e)
  | .panicked m => .panicked m

/-- A write performed on the per-invocation in-memory store or trie
database, in program order. -/
inductive Event where
  | writeHeaders : List Header → Event
  | trieCommit : Hash → Hash → Nat → NodeSet → Event
  | writeCodes : List Bytes → Event
deriving DecidableEq, Repr

/-- The mutable world of one invocation: the pointed-to `PreflightData`
record and the ordered trace of store writes. -/
structure World where
  data : PreflightData
  events : List Event
deriving DecidableEq, Repr

/-- All headers present in the header space of the store: the headers
written so far, in write order. -/
def storeHeaders (w : World) : List Header :=
  w.events.foldl
    (fun acc e =>
      match e with
      | .writeHeaders hs => acc ++ hs
      | _ => acc)
    []

/-- Modelled from the spec: the header chain (§4.4; `ethereum.NewChain`
and `core.HeaderChain` are outside the translated source) answers
`GetHeaderByNumber(n)` for every header the hydration stage wrote to the
header space of the store, and not-found for any other header. -/
def getHeaderByNumber (w : World) (n : Nat) : Option Header :=
  (storeHeaders w).find? (fun h => h.number == n)

/-- The external collaborators called by the pipeline, abstracted by
their result behaviour.  `execute` receives the cancellation token state
because the source forwards the context to the executor. -/
structure Collab where
  newChain : ChainConfig → Except String Unit
  nodeSetFromProofs : Hash → Hash → List StateProof → List StateProof → Except String NodeSet
  trieUpdate : Hash → Hash → Nat → NodeSet → Except String Unit
  stateNew : Hash → Except String Unit
  execute : Bool → ExecParams → Except String Witness

/-- The message of a Go index-out-of-range runtime fault. -/
def indexPanicMsg : String := "runtime error: index out of range"

/-- The message of a Go nil-pointer-dereference runtime fault. -/
def nilPanicMsg : String := "runtime error: invalid memory address or nil pointer dereference"

/-- Translation of `preparer.prepareContext`: wires the in-memory store,
trie database, state database and header chain.  The fresh stores are
the (empty) event trace already carried by `w`; only the `NewChain`
call can fail. -/
def prepareContext (c : Collab) (w : World) : Except Failure Unit × World :=
  match c.newChain w.data.chainConfig with
  | .error m => (.error (.thrown (.wrap "failed to create chain" (.base m))), w)
  | .ok _ => (.ok (), w)

/-- Translation of `preparer.preparePreState`: writes the ancestor
headers, builds the node set from the state-transition proofs, commits
it under `parentRoot → genesisRoot` with block number 0, then writes the
bytecodes.  `inputs.Ancestors[0]` faults on an empty sequence;
`genesisHeader.Root` faults when `GetHeaderByNumber(0)` found nothing —
and that dereference sits after the node-set construction in the
source, so a node-set error pre-empts the fault. -/
def preparePreState (c : Collab) (w : World) : Except Failure Unit × World :=
  let inputs := w.data
  let w1 : World := { w with events := w.events ++ [Event.writeHeaders inputs.ancestors] }
  match inputs.ancestors.head? with
  | none => (.error (.panicked indexPanicMsg), w1)
  | some parentHeader =>
    let genesisHeader? := getHeaderByNumber w1 0
    match c.nodeSetFromProofs parentHeader.root inputs.block.root inputs.preStateProofs inputs.postStateProofs with
    | .error m => (.error (.thrown (.wrap "failed to create state nodes" (.base m))), w1)
    | .ok nodeSet =>
      match genesisHeader? with
      | none => (.error (.panicked nilPanicMsg), w1)
      | some genesisHeader =>
        match c.trieUpdate parentHeader.root genesisHeader.root 0 nodeSet with
        | .error m =>
          (.error (.thrown (.wrap "failed to update trie db with state nodes" (.base m))), w1)
        | .ok _ =>
          (.ok (),
            { w1 with
              events := w1.events ++
                [Event.trieCommit parentHeader.root genesisHeader.root 0 nodeSet,
                 Event.writeCodes inputs.codes] })

/-- Translation of `preparer.prepareExecParams`: opens the pre-state at
the parent header's root and assembles the executor parameters with
`StatelessSelfValidation` and `Validate` set.  `inputs.Ancestors[0]`
faults on an empty sequence. -/
def prepareExecParams (c : Collab) (w : World) : Except Failure ExecParams × World :=
  let inputs := w.data
  match inputs.ancestors.head? with
  | none => (.error (.panicked indexPanicMsg), w)
  | some parentHeader =>
    match c.stateNew parentHeader.root with
    | .error m =>
      (.error (.thrown (.wrap ("failed to create pre-state from parent root " ++ toString parentHeader.root) (.base m))), w)
    | .ok _ =>
      (.ok
        { vmStatelessSelfValidation := true
          block := inputs.block
          validate := true
          chainConfig := inputs.chainConfig
          stateRoot := parentHeader.root }, w)

/-- Translation of `preparer.execute`: runs the (decorated) executor and
wraps its error.  On success the witness recorded in the state object is
the executor's witness. -/
def executeStage (c : Collab) (cancelled : Bool) (ep : ExecParams) : Except Failure Witness :=
  match c.execute cancelled ep with
  | .error m => .error (.thrown (.wrap "failed to execute block" (.base m)))
  | .ok wtn => .ok wtn

/-- Translation of `preparer.prepareProverInput`: assembles the output
record from the executed block, the chain's config, and the witness
recorded in the state object; the code and state sets are appended one
element at a time in iteration order. -/
def prepareProverInput (ep : ExecParams) (wtn : Witness) : ProverInput :=
  { chainConfig := ep.chainConfig
    blocks :=
      [{ header := ep.block.header
         transactions := ep.block.transactions
         uncles := ep.block.uncles
         withdrawals := ep.block.withdrawals }]
    witness :=
      { ancestors := wtn.headers
        codes := wtn.codes.foldl (fun acc code => acc ++ [code]) []
        state := wtn.state.foldl (fun acc node => acc ++ [node]) [] } }

/-- Translation of `preparer.prepare`: the four stages in sequence, each
failure wrapped with its stage name. -/
def prepare (c : Collab) (cancelled : Bool) (w : World) : Outcome ProverInput × World :=
  match prepareContext c w with
  | (.error f, w1) => (liftFailure (f.wrapWith "failed to prepare validation context"), w1)
  | (.ok _, w1) =>
    match preparePreState c w1 with
    | (.error f, w2) => (liftFailure (f.wrapWith "failed to prefill validation database"), w2)
    | (.ok _, w2) =>
      match prepareExecParams c w2 with
      | (.error f, w3) => (liftFailure (f.wrapWith "failed to prepare validation exec params"), w3)
      | (.ok ep, w3) =>
        match executeStage c cancelled ep with
        | .error f => (liftFailure (f.wrapWith "validation execution failed"), w3)
        | .ok wtn => (.ret (some (prepareProverInput ep wtn)) none, w3)

/-- Translation of `preparer.Prepare`: sets up a fresh per-invocation
world, runs the pipeline, and returns `(nil, err)` on failure or
`(inputs, nil)` on success. -/
def Prepare (c : Collab) (cancelled : Bool) (data : PreflightData) : Outcome ProverInput × World :=
  match prepare c cancelled { data := data, events := [] } with
  | (.ret _ (some e), w) => (.ret none (some e), w)
  | (.ret v none, w) => (.ret v none, w)
  | (.panicked m, w) => (.panicked m, w)

/-- Modelled from the spec: `NodeSetFromStateTransitionProofs` (§4.5,
§6.3; the trie package is outside the translated source) verifies that
the pre-proofs are rooted at `preRoot` and the post-proofs at
`postRoot`, failing with proof-root-mismatch otherwise, and otherwise
unions the proofs' nodes into one node set. -/
def specNodeSetFromProofs (preRoot postRoot : Hash)
    (pre post : List StateProof) : Except String NodeSet :=
  if pre.all (fun p => p.root == preRoot) && post.all (fun p => p.root == postRoot) then
    .ok ((pre ++ post).foldl (fun acc p => acc ++ p.nodes) [])
  else
    .error "proof-root-mismatch"

/-- Modelled from the spec: the EVM executor (§6.2; the evm package is
outside the translated source).  `recomputedRoot` stands for the
post-state root the execution recomputes and `wtn` for the witness it
records; with `Validate = true` a recomputed root that disagrees with
the block header's root makes execution fail. -/
def specExecute (recomputedRoot : Hash) (wtn : Witness) :
    Bool → ExecParams → Except String Witness :=
  fun _ ep =>
    if ep.validate && !(recomputedRoot == ep.block.header.root) then
      .error "stateless self-validation failed: final state root mismatch"
    else
      .ok wtn

/-- A collaborator bundle on which every external call succeeds. -/
def okCollab : Collab where
  newChain := fun _ => .ok ()
  nodeSetFromProofs := fun _ _ _ _ => .ok []
  trieUpdate := fun _ _ _ _ => .ok ()
  stateNew := fun _ => .ok ()
  execute := fun _ _ => .ok { headers := [], codes := [], state := [] }

/-- A sample preflight record whose single ancestor is the genesis
header, so the whole pipeline can succeed on it. -/
def sampleData : PreflightData where
  chainConfig := { chainID := 1, forkSchedule := 0 }
  block :=
    { header := { number := 1, root := 9, parentHash := 3, extra := 0 }
      transactions := [[1]]
      uncles := []
      withdrawals := none }
  ancestors := [{ number := 0, root := 7, parentHash := 0, extra := 0 }]
  preStateProofs := [{ root := 7, nodes := [[5]] }]
  postStateProofs := [{ root := 9, nodes := [[6]] }]
  codes := [[4, 2]]

/-- The prover input produced by running the pipeline on `sampleData`
with `okCollab`. -/
def samplePI : ProverInput :=
  { chainConfig := { chainID := 1, forkSchedule := 0 }
    blocks :=
      [{ header := { number := 1, root := 9, parentHash := 3, extra := 0 }
         transactions := [[1]]
         uncles := []
         withdrawals := none }]
    witness := { ancestors := [], codes := [], state := [] } }

/-- The final world of the pipeline run on `sampleData` with `okCollab`. -/
def sampleWorld : World :=
  { data := sampleData
    events :=
      [Event.writeHeaders [{ number := 0, root := 7, parentHash := 0, extra := 0 }],
       Event.trieCommit 7 7 0 [],
       Event.writeCodes [[4, 2]]] }

/-- The exec params produced on `sampleData`. -/
def sampleExecParams : ExecParams :=
  { vmStatelessSelfValidation := true
    block := sampleData.block
    validate := true
    chainConfig := { chainID := 1, forkSchedule := 0 }
    stateRoot := 7 }

/-- A collaborator bundle whose chain construction fails. -/
def failCtxCollab : Collab :=
  { okCollab with newChain := fun _ => .error "bad genesis" }

/-- Two executor witnesses that agree up to the iteration order of the
code and state map key sets. -/
def WitnessEquiv (u v : Witness) : Prop :=
  u.headers = v.headers ∧ u.codes.Perm v.codes ∧ u.state.Perm v.state

/-- Two executor results that agree up to witness iteration order. -/
def ExecEquiv : Except String Witness → Except String Witness → Prop
  | .ok u, .ok v => WitnessEquiv u v
  | .error m, .error m2 => m = m2
  | _, _ => False

/-- A preflight record whose single ancestor (the parent) is not the
genesis header, and whose pre-state proofs are declared against the
wrong root. -/
def noGenesisData : PreflightData where
  chainConfig := { chainID := 1, forkSchedule := 0 }
  block :=
    { header := { number := 2, root := 9, parentHash := 3, extra := 0 }
      transactions := []
      uncles := []
      withdrawals := none }
  ancestors := [{ number := 1, root := 5, parentHash := 4, extra := 0 }]
  preStateProofs := [{ root := 6, nodes := [] }]
  postStateProofs := []
  codes := []

/-- okCollab with the spec-modelled node-set builder. -/
def specCollab : Collab :=
  { okCollab with nodeSetFromProofs := specNodeSetFromProofs }

/-- The sample record with an empty ancestor sequence. -/
def emptyAncestorsData : PreflightData := { sampleData with ancestors := [] }

lemma prepareContext_world (c : Collab) (w : World) :
    (prepareContext c w).2 = w := by
  unfold prepareContext
  cases c.newChain w.data.chainConfig <;> rfl

lemma preparePreState_data (c : Collab) (w : World) :
    ((preparePreState c w).2).data = w.data := by
  unfold preparePreState
  dsimp only
  cases h1 : w.data.ancestors.head? with
  | none => rfl
  | some ph =>
    dsimp only
    cases h2 : c.nodeSetFromProofs ph.root w.data.block.root w.data.preStateProofs w.data.postStateProofs with
    | error m => rfl
    | ok ns =>
      dsimp only
      cases h3 : getHeaderByNumber { w with events := w.events ++ [Event.writeHeaders w.data.ancestors] } 0 with
      | none => rfl
      | some g =>
        dsimp only
        cases h4 : c.trieUpdate ph.root g.root 0 ns with
        | error m => rfl
        | ok u => rfl

lemma prepareExecParams_world (c : Collab) (w : World) :
    (prepareExecParams c w).2 = w := by
  unfold prepareExecParams
  dsimp only
  cases h1 : w.data.ancestors.head? with
  | none => rfl
  | some ph =>
    dsimp only
    cases h2 : c.stateNew ph.root with
    | error m => rfl
    | ok u => rfl

lemma prepare_data (c : Collab) (cancelled : Bool) (w : World) :
    ((prepare c cancelled w).2).data = w.data := by
  unfold prepare
  rcases hc : prepareContext c w with ⟨rc, w1⟩
  have h1 : w1 = w := by
    have h := prepareContext_world c w
    rw [hc] at h
    exact h
  cases rc with
  | error f => exact congrArg World.data h1
  | ok u =>
    dsimp only
    rcases hp : preparePreState c w1 with ⟨rp, w2⟩
    have h2 : w2.data = w1.data := by
      have h := preparePreState_data c w1
      rw [hp] at h
      exact h
    cases rp with
    | error f => exact h2.trans (congrArg World.data h1)
    | ok u2 =>
      dsimp only
      rcases he : prepareExecParams c w2 with ⟨re, w3⟩
      have h3 : w3 = w2 := by
        have h := prepareExecParams_world c w2
        rw [he] at h
        exact h
      cases re with
      | error f => exact (congrArg World.data h3).trans (h2.trans (congrArg World.data h1))
      | ok ep =>
        dsimp only
        cases hx : executeStage c cancelled ep with
        | error f => exact (congrArg World.data h3).trans (h2.trans (congrArg World.data h1))
        | ok wtn => exact (congrArg World.data h3).trans (h2.trans (congrArg World.data h1))

lemma prepare_classify (c : Collab) (b : Bool) (w : World) :
    (∃ pi w', prepare c b w = (.ret (some pi) none, w')) ∨
    (∃ e w', prepare c b w = (.ret none (some e), w')) ∨
    (∃ m w', prepare c b w = (.panicked m, w')) := by
  unfold prepare
  rcases hc : prepareContext c w with ⟨rc, w1⟩
  cases rc with
  | error f =>
    dsimp only
    cases f with
    | thrown e => exact Or.inr (Or.inl ⟨_, _, rfl⟩)
    | panicked m => exact Or.inr (Or.inr ⟨_, _, rfl⟩)
  | ok u =>
    dsimp only
    rcases hp : preparePreState c w1 with ⟨rp, w2⟩
    cases rp with
    | error f =>
      dsimp only
      cases f with
      | thrown e => exact Or.inr (Or.inl ⟨_, _, rfl⟩)
      | panicked m => exact Or.inr (Or.inr ⟨_, _, rfl⟩)
    | ok u2 =>
      dsimp only
      rcases he : prepareExecParams c w2 with ⟨re, w3⟩
      cases re with
      | error f =>
        dsimp only
        cases f with
        | thrown e => exact Or.inr (Or.inl ⟨_, _, rfl⟩)
        | panicked m => exact Or.inr (Or.inr ⟨_, _, rfl⟩)
      | ok ep =>
        dsimp only
        cases hx : executeStage c b ep with
        | error f =>
          dsimp only
          cases f with
          | thrown e => exact Or.inr (Or.inl ⟨_, _, rfl⟩)
          | panicked m => exact Or.inr (Or.inr ⟨_, _, rfl⟩)
        | ok wtn => exact Or.inl ⟨_, _, rfl⟩

lemma prepareContext_ok_inv (c : Collab) (w : World) (u : Unit) (w' : World)
    (h : prepareContext c w = (.ok u, w')) :
    c.newChain w.data.chainConfig = .ok () ∧ w' = w := by
  unfold prepareContext at h
  cases hn : c.newChain w.data.chainConfig with
  | error m => rw [hn] at h; simp at h
  | ok u2 =>
    rw [hn] at h
    dsimp only at h
    cases u2
    simp only [Prod.mk.injEq] at h
    exact ⟨rfl, h.2.symm⟩

lemma preparePreState_ok_inv (c : Collab) (w : World) (w' : World)
    (h : preparePreState c w = (.ok (), w')) :
    ∃ ph g ns,
      w.data.ancestors.head? = some ph ∧
      getHeaderByNumber { w with events := w.events ++ [Event.writeHeaders w.data.ancestors] } 0 = some g ∧
      c.nodeSetFromProofs ph.root w.data.block.root w.data.preStateProofs w.data.postStateProofs = .ok ns ∧
      c.trieUpdate ph.root g.root 0 ns = .ok () ∧
      w' = { w with
             events := w.events ++ [Event.writeHeaders w.data.ancestors] ++
               [Event.trieCommit ph.root g.root 0 ns, Event.writeCodes w.data.codes] } := by
  unfold preparePreState at h
  dsimp only at h
  cases h1 : w.data.ancestors.head? with
  | none => rw [h1] at h; simp at h
  | some ph =>
    rw [h1] at h
    dsimp only at h
    cases h2 : c.nodeSetFromProofs ph.root w.data.block.root w.data.preStateProofs w.data.postStateProofs with
    | error m => rw [h2] at h; simp at h
    | ok ns =>
      rw [h2] at h
      dsimp only at h
      cases h3 : getHeaderByNumber { w with events := w.events ++ [Event.writeHeaders w.data.ancestors] } 0 with
      | none => rw [h3] at h; simp at h
      | some g =>
        rw [h3] at h
        dsimp only at h
        cases h4 : c.trieUpdate ph.root g.root 0 ns with
        | error m => rw [h4] at h; simp at h
        | ok u =>
          rw [h4] at h
          dsimp only at h
          cases u
          refine ⟨ph, g, ns, rfl, rfl, h2, h4, ?_⟩
          simp only [Prod.mk.injEq] at h
          exact h.2.symm

lemma prepareExecParams_ok_inv (c : Collab) (w : World) (ep : ExecParams) (w' : World)
    (h : prepareExecParams c w = (.ok ep, w')) :
    ∃ ph,
      w.data.ancestors.head? = some ph ∧
      c.stateNew ph.root = .ok () ∧
      ep = { vmStatelessSelfValidation := true
             block := w.data.block
             validate := true
             chainConfig := w.data.chainConfig
             stateRoot := ph.root } ∧
      w' = w := by
  unfold prepareExecParams at h
  dsimp only at h
  cases h1 : w.data.ancestors.head? with
  | none => rw [h1] at h; simp at h
  | some ph =>
    rw [h1] at h
    dsimp only at h
    cases h2 : c.stateNew ph.root with
    | error m => rw [h2] at h; simp at h
    | ok u =>
      rw [h2] at h
      dsimp only at h
      cases u
      simp only [Prod.mk.injEq, Except.ok.injEq] at h
      exact ⟨ph, rfl, h2, h.1.symm, h.2.symm⟩

lemma prepare_ok_inv (c : Collab) (b : Bool) (w : World) (pi : ProverInput) (w' : World)
    (h : prepare c b w = (.ret (some pi) none, w')) :
    ∃ w2 ep wtn,
      c.newChain w.data.chainConfig = .ok () ∧
      preparePreState c w = (.ok (), w2) ∧
      prepareExecParams c w2 = (.ok ep, w2) ∧
      c.execute b ep = .ok wtn ∧
      pi = prepareProverInput ep wtn ∧
      w' = w2 := by
  unfold prepare at h
  rcases hc : prepareContext c w with ⟨rc, w1⟩
  rw [hc] at h
  cases rc with
  | error f =>
    dsimp only at h
    cases f <;> simp [liftFailure, Failure.wrapWith] at h
  | ok u =>
    obtain ⟨hn, hw1⟩ := prepareContext_ok_inv c w u w1 hc
    replace hw1 := hw1.symm
    subst hw1
    dsimp only at h
    rcases hp : preparePreState c w with ⟨rp, w2⟩
    rw [hp] at h
    cases rp with
    | error f =>
      dsimp only at h
      cases f <;> simp [liftFailure, Failure.wrapWith] at h
    | ok u2 =>
      cases u2
      dsimp only at h
      rcases he : prepareExecParams c w2 with ⟨re, w3⟩
      rw [he] at h
      cases re with
      | error f =>
        dsimp only at h
        cases f <;> simp [liftFailure, Failure.wrapWith] at h
      | ok ep =>
        dsimp only at h
        obtain ⟨ph, hph, hsn, hep, hw3⟩ := prepareExecParams_ok_inv c w2 ep w3 he
        unfold executeStage at h
        cases hx : c.execute b ep with
        | error m => rw [hx] at h; dsimp only at h; simp [liftFailure, Failure.wrapWith] at h
        | ok wtn =>
          rw [hx] at h
          dsimp only at h
          simp only [Prod.mk.injEq, Outcome.ret.injEq, Option.some.injEq] at h
          replace hw3 := hw3.symm
          subst hw3
          exact ⟨w2, ep, wtn, hn, rfl, he, hx, h.1.1.symm, h.2.symm⟩

/-- C1: for every `PreflightData` on which `Prepare` succeeds, the
returned `ProverInput.Blocks` is a one-element sequence whose single
entry's header, transactions, uncles, and withdrawals are identical to
those of `preflight.Block`. -/
theorem prepare_blocks_identical (c : Collab) (b : Bool) (data : PreflightData)
    (pi : ProverInput) (w : World)
    (h : Prepare c b data = (.ret (some pi) none, w)) :
    pi.blocks =
      [{ header := data.block.header
         transactions := data.block.transactions
         uncles := data.block.uncles
         withdrawals := data.block.withdrawals }] := by
  unfold Prepare at h
  rcases hp : prepare c b { data := data, events := [] } with ⟨r, w0⟩
  rw [hp] at h
  cases r with
  | ret v e =>
    cases e with
    | some e0 => dsimp only at h; simp at h
    | none =>
      dsimp only at h
      simp only [Prod.mk.injEq, Outcome.ret.injEq] at h
      obtain ⟨⟨hv, -⟩, hw⟩ := h
      rw [hv] at hp
      obtain ⟨w2, ep, wtn, hn, hps, hepw, hx, hpi, hww⟩ :=
        prepare_ok_inv c b { data := data, events := [] } pi w0 hp
      obtain ⟨ph, hph, hsn, hep, -⟩ := prepareExecParams_ok_inv c w2 ep w2 hepw
      have hdata : w2.data = data := by
        have h2 := preparePreState_data c { data := data, events := [] }
        rw [hps] at h2
        exact h2
      rw [hpi, hep]
      simp [prepareProverInput, hdata]
  | panicked m => dsimp only at h; simp at h

/-- Witness for C1 at a concrete input. -/
theorem prepare_blocks_identical_witness :
    samplePI.blocks =
      [{ header := sampleData.block.header
         transactions := sampleData.block.transactions
         uncles := sampleData.block.uncles
         withdrawals := sampleData.block.withdrawals }] :=
  prepare_blocks_identical okCollab false sampleData samplePI sampleWorld (by decide)

/-- C2: for every `PreflightData`, `Prepare` returns either a non-nil
`ProverInput` with a nil error, or a nil `ProverInput` with a non-nil
error (`(nil, nil)` is impossible, and no partial `ProverInput` escapes
on failure); the remaining possibility is a propagating runtime fault,
which returns nothing at all. -/
theorem Prepare_never_nil_nil (c : Collab) (b : Bool) (data : PreflightData) :
    (∃ pi w, Prepare c b data = (.ret (some pi) none, w)) ∨
    (∃ e w, Prepare c b data = (.ret none (some e), w)) ∨
    (∃ m w, Prepare c b data = (.panicked m, w)) := by
  rcases prepare_classify c b { data := data, events := [] } with ⟨pi, w, h⟩ | ⟨e, w, h⟩ | ⟨m, w, h⟩
  · refine Or.inl ⟨pi, w, ?_⟩
    unfold Prepare
    rw [h]
  · refine Or.inr (Or.inl ⟨e, w, ?_⟩)
    unfold Prepare
    rw [h]
  · refine Or.inr (Or.inr ⟨m, w, ?_⟩)
    unfold Prepare
    rw [h]

/-- C10: `Prepare` never mutates its `PreflightData` argument: on every
path (success, returned error, or fault) the record held in the final
world is the input record, every field unchanged. -/
theorem Prepare_preserves_preflight (c : Collab) (b : Bool) (data : PreflightData) :
    ((Prepare c b data).2).data = data := by
  unfold Prepare
  rcases hp : prepare c b { data := data, events := [] } with ⟨r, w⟩
  have h := prepare_data c b { data := data, events := [] }
  rw [hp] at h
  cases r with
  | ret v e =>
    cases e with
    | some e0 => exact h
    | none => exact h
  | panicked m => exact h

/-- C3: successful pre-state hydration performs exactly these steps in
order: write every ancestor header into the header space, build the
node set from the pre- and post-state proofs bracketed by the parent
root and the block's post-state root, commit it to the trie database
under the transition parentRoot → genesisRoot with block number 0, and
finally write every bytecode into the code space. -/
theorem preparePreState_steps (c : Collab) (data : PreflightData) (w' : World)
    (h : preparePreState c { data := data, events := [] } = (.ok (), w')) :
    ∃ ph g ns,
      data.ancestors.head? = some ph ∧
      getHeaderByNumber { data := data, events := [Event.writeHeaders data.ancestors] } 0 = some g ∧
      c.nodeSetFromProofs ph.root data.block.root data.preStateProofs data.postStateProofs = .ok ns ∧
      c.trieUpdate ph.root g.root 0 ns = .ok () ∧
      w'.events =
        [Event.writeHeaders data.ancestors,
         Event.trieCommit ph.root g.root 0 ns,
         Event.writeCodes data.codes] := by
  obtain ⟨ph, g, ns, h1, h2, h3, h4, h5⟩ :=
    preparePreState_ok_inv c { data := data, events := [] } w' h
  exact ⟨ph, g, ns, h1, h2, h3, h4, by rw [h5]; rfl⟩

/-- Witness for C3 at a concrete input. -/
theorem preparePreState_steps_witness :
    ∃ ph g ns,
      sampleData.ancestors.head? = some ph ∧
      getHeaderByNumber { data := sampleData, events := [Event.writeHeaders sampleData.ancestors] } 0 = some g ∧
      okCollab.nodeSetFromProofs ph.root sampleData.block.root sampleData.preStateProofs sampleData.postStateProofs = .ok ns ∧
      okCollab.trieUpdate ph.root g.root 0 ns = .ok () ∧
      sampleWorld.events =
        [Event.writeHeaders sampleData.ancestors,
         Event.trieCommit ph.root g.root 0 ns,
         Event.writeCodes sampleData.codes] :=
  preparePreState_steps okCollab sampleData sampleWorld (by rfl)

/-- C4: the execution parameters handed to the executor are the
preflight block, the chain (carrying the chain config), the state
opened at the parent header's state root, `StatelessSelfValidation =
true` and `Validate = true`; consequently, under the spec-modelled
executor, a post-execution state-root mismatch against `Block.Root`
makes execution fail. -/
theorem execParams_stateless_validate (c : Collab) (w : World) (ep : ExecParams) (w' : World)
    (hep : prepareExecParams c w = (.ok ep, w')) :
    (ep.vmStatelessSelfValidation = true ∧ ep.validate = true ∧
     ep.block = w.data.block ∧ ep.chainConfig = w.data.chainConfig ∧
     ∃ ph, w.data.ancestors.head? = some ph ∧ ep.stateRoot = ph.root) ∧
    (∀ r wtn b, r ≠ ep.block.root →
      specExecute r wtn b ep =
        .error "stateless self-validation failed: final state root mismatch") := by
  obtain ⟨ph, h1, h2, h3, h4⟩ := prepareExecParams_ok_inv c w ep w' hep
  subst h3
  constructor
  · exact ⟨rfl, rfl, rfl, rfl, ph, h1, rfl⟩
  · intro r wtn b hr
    have hb : (r == w.data.block.header.root) = false := beq_eq_false_iff_ne.mpr hr
    simp [specExecute, hb]

/-- Witness for C4 at a concrete input: the flags are set on the
concrete run, and the spec-modelled executor rejects a mismatching
recomputed root there. -/
theorem execParams_stateless_validate_witness :
    (sampleExecParams.vmStatelessSelfValidation = true ∧
     sampleExecParams.validate = true ∧
     sampleExecParams.block = sampleData.block ∧
     sampleExecParams.chainConfig = sampleData.chainConfig ∧
     ∃ ph, sampleData.ancestors.head? = some ph ∧ sampleExecParams.stateRoot = ph.root) ∧
    specExecute 8 { headers := [], codes := [], state := [] } false sampleExecParams =
      .error "stateless self-validation failed: final state root mismatch" :=
  ⟨(execParams_stateless_validate okCollab { data := sampleData, events := [] }
      sampleExecParams { data := sampleData, events := [] } (by rfl)).1,
   (execParams_stateless_validate okCollab { data := sampleData, events := [] }
      sampleExecParams { data := sampleData, events := [] } (by rfl)).2
     8 { headers := [], codes := [], state := [] } false (by decide)⟩

lemma prepareContext_err_inv (c : Collab) (w : World) (f : Failure) (w' : World)
    (h : prepareContext c w = (.error f, w')) :
    ∃ m, c.newChain w.data.chainConfig = .error m ∧
      f = .thrown (.wrap "failed to create chain" (.base m)) ∧ w' = w := by
  unfold prepareContext at h
  cases hn : c.newChain w.data.chainConfig with
  | error m =>
    rw [hn] at h
    dsimp only at h
    simp only [Prod.mk.injEq, Except.error.injEq] at h
    exact ⟨m, rfl, h.1.symm, h.2.symm⟩
  | ok u => rw [hn] at h; simp at h

/-- C5: whenever `Prepare` fails with a returned error, that error is
the failing stage's error wrapped with exactly one of the four stage
names, each name corresponding to its stage: context build, pre-state
hydration, exec-param building, execution. -/
theorem prepare_error_stage_names (c : Collab) (b : Bool) (data : PreflightData)
    (e : GoError) (w : World)
    (h : Prepare c b data = (.ret none (some e), w)) :
    ∃ inner,
      (e = .wrap "failed to prepare validation context" inner ∧
        ∃ m, c.newChain data.chainConfig = .error m) ∨
      (e = .wrap "failed to prefill validation database" inner ∧
        ∃ w2, preparePreState c { data := data, events := [] } = (.error (.thrown inner), w2)) ∨
      (e = .wrap "failed to prepare validation exec params" inner ∧
        ∃ w2 w3, preparePreState c { data := data, events := [] } = (.ok (), w2) ∧
          prepareExecParams c w2 = (.error (.thrown inner), w3)) ∨
      (e = .wrap "validation execution failed" inner ∧
        ∃ w2 ep m, preparePreState c { data := data, events := [] } = (.ok (), w2) ∧
          prepareExecParams c w2 = (.ok ep, w2) ∧
          c.execute b ep = .error m ∧
          inner = .wrap "failed to execute block" (.base m)) := by
  unfold Prepare at h
  rcases hp : prepare c b { data := data, events := [] } with ⟨r, w0⟩
  rw [hp] at h
  cases r with
  | panicked m => dsimp only at h; simp at h
  | ret v e0 =>
    cases e0 with
    | none => dsimp only at h; simp at h
    | some e1 =>
      dsimp only at h
      simp only [Prod.mk.injEq, Outcome.ret.injEq, Option.some.injEq] at h
      obtain ⟨⟨-, he⟩, hw⟩ := h
      subst he
      unfold prepare at hp
      rcases hc : prepareContext c { data := data, events := [] } with ⟨rc, w1⟩
      rw [hc] at hp
      cases rc with
      | error f =>
        obtain ⟨m, hm, hf, hw1⟩ := prepareContext_err_inv c { data := data, events := [] } f w1 hc
        subst hf
        dsimp only [liftFailure, Failure.wrapWith] at hp
        simp only [Prod.mk.injEq, Outcome.ret.injEq, Option.some.injEq] at hp
        obtain ⟨⟨-, hee⟩, -⟩ := hp
        exact ⟨.wrap "failed to create chain" (.base m), Or.inl ⟨hee.symm, m, hm⟩⟩
      | ok u =>
        obtain ⟨hn, hw1⟩ := prepareContext_ok_inv c { data := data, events := [] } u w1 hc
        replace hw1 := hw1.symm
        subst hw1
        dsimp only at hp
        rcases hpp : preparePreState c { data := data, events := [] } with ⟨rp, w2⟩
        rw [hpp] at hp
        cases rp with
        | error f =>
          cases f with
          | thrown inner0 =>
            dsimp only [liftFailure, Failure.wrapWith] at hp
            simp only [Prod.mk.injEq, Outcome.ret.injEq, Option.some.injEq] at hp
            obtain ⟨⟨-, hee⟩, -⟩ := hp
            exact ⟨inner0, Or.inr (Or.inl ⟨hee.symm, w2, rfl⟩)⟩
          | panicked m2 =>
            dsimp only [liftFailure, Failure.wrapWith] at hp
            simp at hp
        | ok u2 =>
          cases u2
          dsimp only at hp
          rcases hee2 : prepareExecParams c w2 with ⟨re, w3⟩
          rw [hee2] at hp
          cases re with
          | error f =>
            cases f with
            | thrown inner0 =>
              dsimp only [liftFailure, Failure.wrapWith] at hp
              simp only [Prod.mk.injEq, Outcome.ret.injEq, Option.some.injEq] at hp
              obtain ⟨⟨-, hee⟩, -⟩ := hp
              exact ⟨inner0, Or.inr (Or.inr (Or.inl ⟨hee.symm, w2, w3, rfl, hee2⟩))⟩
            | panicked m2 =>
              dsimp only [liftFailure, Failure.wrapWith] at hp
              simp at hp
          | ok ep =>
            dsimp only at hp
            obtain ⟨ph, hph, hsn, hepv, hw3⟩ := prepareExecParams_ok_inv c w2 ep w3 hee2
            replace hw3 := hw3.symm
            subst hw3
            unfold executeStage at hp
            cases hx : c.execute b ep with
            | error m2 =>
              rw [hx] at hp
              dsimp only [liftFailure, Failure.wrapWith] at hp
              simp only [Prod.mk.injEq, Outcome.ret.injEq, Option.some.injEq] at hp
              obtain ⟨⟨-, hee⟩, -⟩ := hp
              exact ⟨.wrap "failed to execute block" (.base m2),
                Or.inr (Or.inr (Or.inr ⟨hee.symm, w2, ep, m2, rfl, hee2, hx, rfl⟩))⟩
            | ok wtn =>
              rw [hx] at hp
              dsimp only at hp
              simp at hp

/-- Witness for C5 at a concrete input with a failing context stage. -/
theorem prepare_error_stage_names_witness :
    ∃ inner,
      ((GoError.wrap "failed to prepare validation context"
          (.wrap "failed to create chain" (.base "bad genesis"))) =
        .wrap "failed to prepare validation context" inner ∧
        ∃ m, failCtxCollab.newChain sampleData.chainConfig = .error m) ∨
      ((GoError.wrap "failed to prepare validation context"
          (.wrap "failed to create chain" (.base "bad genesis"))) =
        .wrap "failed to prefill validation database" inner ∧
        ∃ w2, preparePreState failCtxCollab { data := sampleData, events := [] } =
          (.error (.thrown inner), w2)) ∨
      ((GoError.wrap "failed to prepare validation context"
          (.wrap "failed to create chain" (.base "bad genesis"))) =
        .wrap "failed to prepare validation exec params" inner ∧
        ∃ w2 w3, preparePreState failCtxCollab { data := sampleData, events := [] } = (.ok (), w2) ∧
          prepareExecParams failCtxCollab w2 = (.error (.thrown inner), w3)) ∨
      ((GoError.wrap "failed to prepare validation context"
          (.wrap "failed to create chain" (.base "bad genesis"))) =
        .wrap "validation execution failed" inner ∧
        ∃ w2 ep m, preparePreState failCtxCollab { data := sampleData, events := [] } = (.ok (), w2) ∧
          prepareExecParams failCtxCollab w2 = (.ok ep, w2) ∧
          failCtxCollab.execute false ep = .error m ∧
          inner = .wrap "failed to execute block" (.base m)) :=
  prepare_error_stage_names failCtxCollab false sampleData
    (.wrap "failed to prepare validation context" (.wrap "failed to create chain" (.base "bad genesis")))
    { data := sampleData, events := [] } (by decide)

lemma foldl_append_singleton {α : Type} (l acc : List α) :
    l.foldl (fun a x => a ++ [x]) acc = acc ++ l := by
  induction l generalizing acc with
  | nil => simp
  | cons x xs ih => simp [List.foldl_cons, ih]

lemma preparePreState_congr (c1 c2 : Collab) (w : World)
    (hns : c1.nodeSetFromProofs = c2.nodeSetFromProofs)
    (htu : c1.trieUpdate = c2.trieUpdate) :
    preparePreState c1 w = preparePreState c2 w := by
  unfold preparePreState
  rw [hns, htu]

lemma prepareExecParams_congr (c1 c2 : Collab) (w : World)
    (hsn : c1.stateNew = c2.stateNew) :
    prepareExecParams c1 w = prepareExecParams c2 w := by
  unfold prepareExecParams
  rw [hsn]

lemma Prepare_ok_to_prepare (c : Collab) (b : Bool) (data : PreflightData)
    (pi : ProverInput) (w : World)
    (h : Prepare c b data = (.ret (some pi) none, w)) :
    prepare c b { data := data, events := [] } = (.ret (some pi) none, w) := by
  unfold Prepare at h
  rcases hp : prepare c b { data := data, events := [] } with ⟨r, w0⟩
  rw [hp] at h
  cases r with
  | panicked m => dsimp only at h; simp at h
  | ret v e0 =>
    cases e0 with
    | some e1 => dsimp only at h; simp at h
    | none =>
      dsimp only at h
      injection h with h1 h2
      injection h1 with hv he
      rw [hv, h2]

/-- C6: `Prepare` is deterministic: two invocations on equal inputs,
through collaborators that differ only in the iteration order of the
executor's witness map key sets, produce `ProverInput`s with bit-equal
`ChainConfig` and `Blocks` and with witness components equal as
unordered sets. -/
theorem Prepare_deterministic (c1 c2 : Collab) (b : Bool) (data : PreflightData)
    (pi1 pi2 : ProverInput) (w1 w2 : World)
    (hnc : c1.newChain = c2.newChain)
    (hns : c1.nodeSetFromProofs = c2.nodeSetFromProofs)
    (htu : c1.trieUpdate = c2.trieUpdate)
    (hsn : c1.stateNew = c2.stateNew)
    (hex : ∀ ep, ExecEquiv (c1.execute b ep) (c2.execute b ep))
    (h1 : Prepare c1 b data = (.ret (some pi1) none, w1))
    (h2 : Prepare c2 b data = (.ret (some pi2) none, w2)) :
    pi1.chainConfig = pi2.chainConfig ∧ pi1.blocks = pi2.blocks ∧
    pi1.witness.ancestors.Perm pi2.witness.ancestors ∧
    pi1.witness.codes.Perm pi2.witness.codes ∧
    pi1.witness.state.Perm pi2.witness.state := by
  have hp1 := Prepare_ok_to_prepare c1 b data pi1 w1 h1
  have hp2 := Prepare_ok_to_prepare c2 b data pi2 w2 h2
  obtain ⟨w2a, ep1, wtn1, hn1, hps1, hepw1, hx1, hpi1, hww1⟩ :=
    prepare_ok_inv c1 b { data := data, events := [] } pi1 w1 hp1
  obtain ⟨w2b, ep2, wtn2, hn2, hps2, hepw2, hx2, hpi2, hww2⟩ :=
    prepare_ok_inv c2 b { data := data, events := [] } pi2 w2 hp2
  have hwab : w2a = w2b := by
    have heq : preparePreState c2 { data := data, events := [] } = (.ok (), w2a) := by
      rw [← preparePreState_congr c1 c2 { data := data, events := [] } hns htu]
      exact hps1
    rw [heq] at hps2
    injection hps2 with h3 h4
  subst hwab
  have hepab : ep1 = ep2 := by
    have heq : prepareExecParams c2 w2a = (.ok ep1, w2a) := by
      rw [← prepareExecParams_congr c1 c2 w2a hsn]
      exact hepw1
    rw [heq] at hepw2
    injection hepw2 with h3 h4
    injection h3 with h5
  subst hepab
  have hwe : WitnessEquiv wtn1 wtn2 := by
    have hq := hex ep1
    rw [hx1, hx2] at hq
    exact hq
  obtain ⟨hh, hcp, hsp⟩ := hwe
  subst hpi1
  subst hpi2
  refine ⟨rfl, rfl, ?_, ?_, ?_⟩
  · simp only [prepareProverInput]
    rw [hh]
  · simp only [prepareProverInput, foldl_append_singleton, List.nil_append]
    exact hcp
  · simp only [prepareProverInput, foldl_append_singleton, List.nil_append]
    exact hsp

/-- Witness for C6 at a concrete input. -/
theorem Prepare_deterministic_witness :
    samplePI.chainConfig = samplePI.chainConfig ∧ samplePI.blocks = samplePI.blocks ∧
    samplePI.witness.ancestors.Perm samplePI.witness.ancestors ∧
    samplePI.witness.codes.Perm samplePI.witness.codes ∧
    samplePI.witness.state.Perm samplePI.witness.state :=
  Prepare_deterministic okCollab okCollab false sampleData samplePI samplePI
    sampleWorld sampleWorld rfl rfl rfl rfl
    (fun ep => ⟨rfl, List.Perm.refl _, List.Perm.refl _⟩)
    (by decide) (by decide)

/-- C7 counterexample: with the cancellation token triggered from the
start, the pipeline still performs the entire hydration (all store
writes happen) and succeeds with no cancelled error — so no stage
checked the token before hydration, before execution, or after
execution. -/
theorem prepare_no_cancellation_check_cex :
    Prepare okCollab true sampleData = (Outcome.ret (some samplePI) none, sampleWorld) := by
  decide

/-- C7 amended: the pipeline performs no cancellation checks between
sub-steps; the cancellation token is only forwarded to the executor, so
whenever the executor treats the two token states alike the whole
pipeline's behaviour is independent of the token. -/
theorem prepare_cancellation_only_reaches_executor (c : Collab) (b1 b2 : Bool)
    (data : PreflightData)
    (hex : ∀ ep, c.execute b1 ep = c.execute b2 ep) :
    Prepare c b1 data = Prepare c b2 data := by
  have hpre : prepare c b1 { data := data, events := [] } =
      prepare c b2 { data := data, events := [] } := by
    unfold prepare
    rcases prepareContext c { data := data, events := [] } with ⟨rc, w1⟩
    cases rc with
    | error f => rfl
    | ok u =>
      dsimp only
      rcases preparePreState c w1 with ⟨rp, w2⟩
      cases rp with
      | error f => rfl
      | ok u2 =>
        dsimp only
        rcases prepareExecParams c w2 with ⟨re, w3⟩
        cases re with
        | error f => rfl
        | ok ep =>
          dsimp only
          unfold executeStage
          rw [hex ep]
  unfold Prepare
  rw [hpre]

/-- Witness for the amended C7 theorem at a concrete input. -/
theorem prepare_cancellation_only_reaches_executor_witness :
    Prepare okCollab true sampleData = Prepare okCollab false sampleData :=
  prepare_cancellation_only_reaches_executor okCollab true false sampleData (fun ep => rfl)

/-- C8 counterexample: on a `PreflightData` whose ancestors contain no
header with number 0 but whose proofs make the node-set construction
fail, hydration returns a wrapped error — it does not fault, because
the nil dereference of the genesis header sits after the node-set
construction in the source. -/
theorem preparePreState_no_genesis_wrapped_error_cex :
    noGenesisData.ancestors.all (fun h => !(h.number == 0)) = true ∧
    (preparePreState specCollab { data := noGenesisData, events := [] }).1 =
      .error (.thrown (.wrap "failed to create state nodes" (.base "proof-root-mismatch"))) :=
  ⟨rfl, rfl⟩

lemma preparePreState_nil_genesis (c : Collab) (w : World) (ph : Header) (ns : NodeSet)
    (hph : w.data.ancestors.head? = some ph)
    (hg : getHeaderByNumber { w with events := w.events ++ [Event.writeHeaders w.data.ancestors] } 0 = none)
    (hns : c.nodeSetFromProofs ph.root w.data.block.root w.data.preStateProofs w.data.postStateProofs = .ok ns) :
    preparePreState c w =
      (.error (.panicked nilPanicMsg),
       { w with events := w.events ++ [Event.writeHeaders w.data.ancestors] }) := by
  unfold preparePreState
  dsimp only
  rw [hph]
  dsimp only
  rw [hns]
  dsimp only
  rw [hg]

/-- C8 amended: the genesis-header lookup during hydration is the first
ancestor with number 0 (the headers just written); when such a header
exists and hydration succeeds, its root is the new-root label of the
trie commit; when no such header exists but the ancestors are non-empty,
hydration faults with a nil-pointer dereference provided the node-set
construction succeeds (a node-set failure returns a wrapped error before
the fault is reached). -/
theorem preparePreState_genesis_semantics (c : Collab) (data : PreflightData) :
    (getHeaderByNumber { data := data, events := [Event.writeHeaders data.ancestors] } 0 =
      data.ancestors.find? (fun h => h.number == 0)) ∧
    (∀ w', preparePreState c { data := data, events := [] } = (.ok (), w') →
      ∃ ph g ns,
        data.ancestors.head? = some ph ∧
        data.ancestors.find? (fun h => h.number == 0) = some g ∧
        c.nodeSetFromProofs ph.root data.block.root data.preStateProofs data.postStateProofs = .ok ns ∧
        w'.events =
          [Event.writeHeaders data.ancestors,
           Event.trieCommit ph.root g.root 0 ns,
           Event.writeCodes data.codes]) ∧
    (∀ ph ns, data.ancestors.head? = some ph →
      data.ancestors.find? (fun h => h.number == 0) = none →
      c.nodeSetFromProofs ph.root data.block.root data.preStateProofs data.postStateProofs = .ok ns →
      preparePreState c { data := data, events := [] } =
        (.error (.panicked nilPanicMsg),
         { data := data, events := [Event.writeHeaders data.ancestors] })) := by
  refine ⟨rfl, ?_, ?_⟩
  · intro w' h
    obtain ⟨ph, g, ns, hh1, hh2, hh3, hh4, hh5⟩ :=
      preparePreState_ok_inv c { data := data, events := [] } w' h
    exact ⟨ph, g, ns, hh1, hh2, hh3, by rw [hh5]; rfl⟩
  · intro ph ns hph hfind hns
    exact preparePreState_nil_genesis c { data := data, events := [] } ph ns hph hfind hns

/-- Witness for the amended C8 theorem: on a concrete input with no
genesis ancestor and a succeeding node-set construction, hydration
faults. -/
theorem preparePreState_genesis_semantics_witness :
    preparePreState okCollab { data := noGenesisData, events := [] } =
      (.error (.panicked nilPanicMsg),
       { data := noGenesisData, events := [Event.writeHeaders noGenesisData.ancestors] }) :=
  (preparePreState_genesis_semantics okCollab noGenesisData).2.2
    { number := 1, root := 5, parentHash := 4, extra := 0 } [] rfl rfl rfl

lemma preparePreState_no_index_panic (c : Collab) (w : World)
    (h : w.data.ancestors ≠ []) :
    (preparePreState c w).1 ≠ .error (.panicked indexPanicMsg) := by
  obtain ⟨a, as, hanc⟩ := List.exists_cons_of_ne_nil h
  have hh : w.data.ancestors.head? = some a := by rw [hanc]; rfl
  unfold preparePreState
  dsimp only
  rw [hh]
  dsimp only
  cases hns : c.nodeSetFromProofs a.root w.data.block.root w.data.preStateProofs w.data.postStateProofs with
  | error m => simp
  | ok ns =>
    dsimp only
    cases hg : getHeaderByNumber { w with events := w.events ++ [Event.writeHeaders w.data.ancestors] } 0 with
    | none =>
      dsimp only
      intro hx
      injection hx with hx1
      injection hx1 with hx2
      exact absurd hx2 (by decide)
    | some g =>
      dsimp only
      cases ht : c.trieUpdate a.root g.root 0 ns with
      | error m => simp
      | ok u => simp

lemma prepareExecParams_no_index_panic (c : Collab) (w : World)
    (h : w.data.ancestors ≠ []) :
    (prepareExecParams c w).1 ≠ .error (.panicked indexPanicMsg) := by
  obtain ⟨a, as, hanc⟩ := List.exists_cons_of_ne_nil h
  have hh : w.data.ancestors.head? = some a := by rw [hanc]; rfl
  unfold prepareExecParams
  dsimp only
  rw [hh]
  dsimp only
  cases hsn : c.stateNew a.root with
  | error m => simp
  | ok u => simp

/-- C9: `Prepare` requires a non-empty `Ancestors` sequence: with at
least one ancestor, the `Ancestors[0]` accesses in hydration and
exec-param building never raise the index fault; with an empty
sequence, both accesses are out of bounds and (once the context stage
succeeded) `Prepare` faults with the index panic instead of returning
an error. -/
theorem prepare_requires_nonempty_ancestors (c : Collab) (b : Bool)
    (data : PreflightData) (w : World)
    (hw : w.data = data) (hn : c.newChain data.chainConfig = .ok ()) :
    (data.ancestors = [] →
      (preparePreState c w).1 = .error (.panicked indexPanicMsg) ∧
      (prepareExecParams c w).1 = .error (.panicked indexPanicMsg) ∧
      (Prepare c b data).1 = .panicked indexPanicMsg) ∧
    (data.ancestors ≠ [] →
      (preparePreState c w).1 ≠ .error (.panicked indexPanicMsg) ∧
      (prepareExecParams c w).1 ≠ .error (.panicked indexPanicMsg) ∧
      (Prepare c b data).1 ≠ .panicked indexPanicMsg) := by
  subst hw
  constructor
  · intro hanc
    have hh : w.data.ancestors.head? = none := by rw [hanc]; rfl
    refine ⟨?_, ?_, ?_⟩
    · unfold preparePreState
      dsimp only
      rw [hh]
    · unfold prepareExecParams
      dsimp only
      rw [hh]
    · have h1 : prepareContext c { data := w.data, events := [] } =
          (.ok (), { data := w.data, events := [] }) := by
        unfold prepareContext
        dsimp only
        rw [hn]
      have h2 : preparePreState c { data := w.data, events := [] } =
          (.error (.panicked indexPanicMsg),
           { data := w.data, events := [] ++ [Event.writeHeaders w.data.ancestors] }) := by
        unfold preparePreState
        dsimp only
        rw [hh]
      unfold Prepare prepare
      rw [h1]
      dsimp only
      rw [h2]
      rfl
  · intro hanc
    refine ⟨preparePreState_no_index_panic c w hanc,
            prepareExecParams_no_index_panic c w hanc, ?_⟩
    unfold Prepare
    rcases hp : prepare c b { data := w.data, events := [] } with ⟨r, w0⟩
    have hr : r ≠ Outcome.panicked indexPanicMsg := by
      intro hres
      rw [hres] at hp
      unfold prepare at hp
      rcases hc : prepareContext c { data := w.data, events := [] } with ⟨rc, w1⟩
      rw [hc] at hp
      cases rc with
      | error f =>
        obtain ⟨m, hm, hf, -⟩ := prepareContext_err_inv c { data := w.data, events := [] } f w1 hc
        subst hf
        dsimp only [liftFailure, Failure.wrapWith] at hp
        simp at hp
      | ok u =>
        obtain ⟨hn2, hw1⟩ := prepareContext_ok_inv c { data := w.data, events := [] } u w1 hc
        dsimp only at hp
        rcases hpp : preparePreState c w1 with ⟨rp, w2⟩
        rw [hpp] at hp
        cases rp with
        | error f =>
          cases f with
          | thrown e =>
            dsimp only [liftFailure, Failure.wrapWith] at hp
            simp at hp
          | panicked m2 =>
            dsimp only [liftFailure, Failure.wrapWith] at hp
            simp only [Prod.mk.injEq, Outcome.panicked.injEq] at hp
            have hne := preparePreState_no_index_panic c w1 (by rw [hw1]; exact hanc)
            rw [hpp] at hne
            exact hne (by rw [hp.1])
        | ok u2 =>
          dsimp only at hp
          rcases hee : prepareExecParams c w2 with ⟨re, w3⟩
          rw [hee] at hp
          cases re with
          | error f =>
            cases f with
            | thrown e =>
              dsimp only [liftFailure, Failure.wrapWith] at hp
              simp at hp
            | panicked m2 =>
              dsimp only [liftFailure, Failure.wrapWith] at hp
              simp only [Prod.mk.injEq, Outcome.panicked.injEq] at hp
              have hd2 : w2.data = w1.data := by
                have hq := preparePreState_data c w1
                rw [hpp] at hq
                exact hq
              have hne := prepareExecParams_no_index_panic c w2 (by rw [hd2, hw1]; exact hanc)
              rw [hee] at hne
              exact hne (by rw [hp.1])
          | ok ep =>
            dsimp only at hp
            unfold executeStage at hp
            cases hx : c.execute b ep with
            | error m2 =>
              rw [hx] at hp
              dsimp only [liftFailure, Failure.wrapWith] at hp
              simp at hp
            | ok wtn =>
              rw [hx] at hp
              dsimp only at hp
              simp at hp
    cases r with
    | ret v e =>
      cases e with
      | some e0 => dsimp only; simp
      | none => dsimp only; simp
    | panicked m =>
      dsimp only
      exact hr

/-- Witness for C9 at a concrete input with empty ancestors. -/
theorem prepare_requires_nonempty_ancestors_witness :
    (preparePreState okCollab { data := emptyAncestorsData, events := [] }).1 =
      .error (.panicked indexPanicMsg) ∧
    (prepareExecParams okCollab { data := emptyAncestorsData, events := [] }).1 =
      .error (.panicked indexPanicMsg) ∧
    (Prepare okCollab false emptyAncestorsData).1 = .panicked indexPanicMsg :=
  (prepare_requires_nonempty_ancestors okCollab false emptyAncestorsData
    { data := emptyAncestorsData, events := [] } rfl rfl).1 rfl

end ZkPig
